import Mathlib

/-!
Shallow embedding of the BioMCP data-access layer
(`src/database/manager.ts`): the query translator
(`DatabaseManager.query`), the custom-query safety guard
(the checks at the top of `executeCustomQuery`), the table-existence
probe (`tableExists`) and the DAO catalog (`getDAONames`), together
with proofs of the specification claims about them.

String handling mirrors the JavaScript primitives the source uses
(`toLowerCase`, `trim`, `includes`, `startsWith`, `String.replace`
with a string pattern, `parseInt`) and the concrete regular
expressions of `DatabaseManager.query`, restricted to ASCII, which
covers every query text the claims quantify over.
-/

deriving instance DecidableEq for Except

/-- JS `\w` character class: ASCII letters, digits and underscore. -/
def isWordChar (c : Char) : Bool := c.isAlphanum || c = '_'

/-- JS `\s` character class, approximated by ASCII whitespace. -/
def isSpaceChar (c : Char) : Bool := c.isWhitespace

/-- JS `String.prototype.toLowerCase` (ASCII range). -/
def jsToLower (s : String) : String := String.mk (s.data.map Char.toLower)

/-- JS `String.prototype.trim`. -/
def jsTrim (s : String) : String :=
  String.mk (((s.data.dropWhile isSpaceChar).reverse.dropWhile isSpaceChar).reverse)

/-- `pat` is a leading run of `text` (exact character match). -/
def strLeads : List Char → List Char → Bool
  | [], _ => true
  | _ :: _, [] => false
  | p :: ps, c :: cs => p = c && strLeads ps cs

/-- Substring occurrence on character lists. -/
def strContainsL (pat : List Char) : List Char → Bool
  | [] => strLeads pat []
  | c :: cs => strLeads pat (c :: cs) || strContainsL pat cs

/-- JS `s.includes(pat)`. -/
def strContains (s pat : String) : Bool := strContainsL pat.data s.data

/-- JS `s.startsWith(pat)`. -/
def jsStarts (s pat : String) : Bool := strLeads pat.data s.data

/-- The two failure shapes of the safety check in
`DatabaseManager.executeCustomQuery` (manager.ts lines 399-409):
a blocked mutating keyword, or a query that does not start with
`select`. -/
inductive SafetyViolation where
  | keyword (k : String)
  | notSelect
deriving DecidableEq

/-- The fixed blocked-keyword list of `executeCustomQuery`
(manager.ts line 399), in source order. -/
def dangerousKeywords : List String :=
  ["drop", "delete", "update", "insert", "alter", "create", "truncate"]

/-- The keyword loop of `executeCustomQuery` (manager.ts lines 400-404):
the first blocked keyword occurring as a substring of the normalized
query, if any. -/
def findDangerous (lowerQuery : String) : Option String :=
  dangerousKeywords.find? (fun k => strContains lowerQuery k)

/-- The validation-and-rewrite half of `DatabaseManager.executeCustomQuery`
(manager.ts lines 394-414): lower-case and trim the text, reject any text
containing a blocked keyword, reject text not starting with `select`,
and append a `LIMIT` cap exactly when the normalized text does not
contain the substring `limit`. -/
def validateCustomQuery (q : String) (lim : Int) : Except SafetyViolation String :=
  let lowerQuery := jsTrim (jsToLower q)
  match findDangerous lowerQuery with
  | some k => Except.error (SafetyViolation.keyword k)
  | none =>
    if jsStarts lowerQuery "select" = false then
      Except.error SafetyViolation.notSelect
    else if strContains lowerQuery "limit" = false then
      Except.ok (q ++ " LIMIT " ++ toString lim)
    else
      Except.ok q

example : validateCustomQuery "drop table x" 100 =
    Except.error (SafetyViolation.keyword "drop") := by decide
example : validateCustomQuery "show tables" 100 =
    Except.error SafetyViolation.notSelect := by decide
example : validateCustomQuery "select * from t" 100 =
    Except.ok "select * from t LIMIT 100" := by decide
example : validateCustomQuery "select limitless from t" 100 =
    Except.ok "select limitless from t" := by decide
example : validateCustomQuery "  SELECT updated_at FROM t" 100 =
    Except.error (SafetyViolation.keyword "update") := by decide

/-- Scalar value of a positional parameter array entry (`params: any[]`).
The analytics callers pass strings and numbers. -/
inductive Param where
  | str (s : String)
  | num (n : Int)
deriving DecidableEq

/-- JS truthiness of the parameter values that can appear here:
the empty string, `0` and `undefined` (modelled by `none` at use
sites) are falsy. -/
def truthyP : Param → Bool
  | Param.str s => !(s == "")
  | Param.num n => !(n == 0)

/-- Truthiness of `params[i]`, where `none` is JS `undefined`. -/
def truthyOpt : Option Param → Bool
  | none => false
  | some p => truthyP p

/-- `params[idx - 1]` for a 1-based textual index `$idx`; out-of-range
access (including `$0`, whose JS index is `-1`) is `undefined`. The
outer `Option` is the optional `params` argument of
`DatabaseManager.query`. -/
def getParam1 (params : Option (List Param)) (idx : Nat) : Option Param :=
  match params with
  | none => none
  | some l => if idx = 0 then none else l.get? (idx - 1)

/-- Value of a digit run. -/
def digitsToNat (ds : List Char) : Nat :=
  ds.foldl (fun n c => n * 10 + (c.toNat - '0'.toNat)) 0

/-- Leading digit run of a char list, as JS `parseInt` reads it. -/
def digitsVal (cs : List Char) : Option Nat :=
  match cs.takeWhile Char.isDigit with
  | [] => none
  | ds => some (digitsToNat ds)

/-- JS `parseInt` on a string: skip whitespace, optional sign, leading
digits; `none` models `NaN`. -/
def parseIntStr (s : String) : Option Int :=
  match s.data.dropWhile isSpaceChar with
  | '-' :: rest => (digitsVal rest).map (fun n => -(n : Int))
  | '+' :: rest => (digitsVal rest).map (fun n => (n : Int))
  | rest => (digitsVal rest).map (fun n => (n : Int))

/-- JS `parseInt(params[i])`: `parseInt` of a number is itself,
`parseInt(undefined)` is `NaN` (`none`). -/
def jsParseIntOpt : Option Param → Option Int
  | none => none
  | some (Param.num n) => some n
  | some (Param.str s) => parseIntStr s

/-- JS `+` on possibly-`NaN` numbers. -/
def jsAdd : Option Int → Option Int → Option Int
  | some a, some b => some (a + b)
  | _, _ => none

/-- JS `-` on possibly-`NaN` numbers. -/
def jsSub : Option Int → Option Int → Option Int
  | some a, some b => some (a - b)
  | _, _ => none

/-- Eat a case-insensitive literal at the head of the text; the literal
is given in lower case. Returns the remaining text. -/
def eatLit : List Char → List Char → Option (List Char)
  | [], cs => some cs
  | _ :: _, [] => none
  | p :: ps, c :: cs => if c.toLower = p then eatLit ps cs else none

/-- Eat a maximal nonempty run of characters satisfying `p`; returns
the run and the remaining text. For the character classes used here
(`\w+`, `\s+`, `\d+`, each followed by a disjoint class or literal)
maximal munch agrees with the backtracking regex semantics. -/
def eatRun1 (p : Char → Bool) (cs : List Char) : Option (List Char × List Char) :=
  match cs.takeWhile p with
  | [] => none
  | run => some (run, cs.drop run.length)

/-- Leftmost-match scan: try the position matcher at every suffix,
earliest first, like JS `String.prototype.match` with a non-anchored
regex. -/
def scanL {α : Type} (m : List Char → Option α) : List Char → Option α
  | [] => m []
  | c :: cs =>
    match m (c :: cs) with
    | some a => some a
    | none => scanL m cs

/-- One position of `/from\s+(\w+)/i` (manager.ts line 87). -/
def matchFromAt (cs : List Char) : Option String := do
  let r1 ← eatLit "from".data cs
  let (_, r2) ← eatRun1 isSpaceChar r1
  let (w, _) ← eatRun1 isWordChar r2
  pure (String.mk w)

/-- `text.match(/from\s+(\w+)/i)`: the captured table name. -/
def matchFromTable (text : String) : Option String :=
  scanL matchFromAt text.data

/-- One position of `/(\w+)\s+ILIKE\s+\$(\d+)/i` (manager.ts line 94). -/
def matchIlikeAt (cs : List Char) : Option (String × Nat) := do
  let (col, r1) ← eatRun1 isWordChar cs
  let (_, r2) ← eatRun1 isSpaceChar r1
  let r3 ← eatLit "ilike".data r2
  let (_, r4) ← eatRun1 isSpaceChar r3
  let r5 ← eatLit "$".data r4
  let (ds, _) ← eatRun1 Char.isDigit r5
  pure (String.mk col, digitsToNat ds)

/-- `text.match(/(\w+)\s+ILIKE\s+\$(\d+)/i)`: captured column and
parameter index. -/
def matchIlike (text : String) : Option (String × Nat) :=
  scanL matchIlikeAt text.data

/-- One position of `/limit\s+\$(\d+)/i` (manager.ts line 129). -/
def matchLimitAt (cs : List Char) : Option Nat := do
  let r1 ← eatLit "limit".data cs
  let (_, r2) ← eatRun1 isSpaceChar r1
  let r3 ← eatLit "$".data r2
  let (ds, _) ← eatRun1 Char.isDigit r3
  pure (digitsToNat ds)

/-- `text.match(/limit\s+\$(\d+)/i)`: the parameter index. -/
def matchLimitIdx (text : String) : Option Nat :=
  scanL matchLimitAt text.data

/-- One position of `/offset\s+\$(\d+)/i` (manager.ts line 130). -/
def matchOffsetAt (cs : List Char) : Option Nat := do
  let r1 ← eatLit "offset".data cs
  let (_, r2) ← eatRun1 isSpaceChar r1
  let r3 ← eatLit "$".data r2
  let (ds, _) ← eatRun1 Char.isDigit r3
  pure (digitsToNat ds)

/-- `text.match(/offset\s+\$(\d+)/i)`: the parameter index. -/
def matchOffsetIdx (text : String) : Option Nat :=
  scanL matchOffsetAt text.data

/-- One position of `/order\s+by\s+(\w+)(?:\s+(asc|desc))?/i`
(manager.ts line 135). The second component reports the optional
direction group: `none` when absent, `some false` for `asc`,
`some true` for `desc`. -/
def matchOrderAt (cs : List Char) : Option (String × Option Bool) := do
  let r1 ← eatLit "order".data cs
  let (_, r2) ← eatRun1 isSpaceChar r1
  let r3 ← eatLit "by".data r2
  let (_, r4) ← eatRun1 isSpaceChar r3
  let (col, r5) ← eatRun1 isWordChar r4
  let dir : Option Bool :=
    match eatRun1 isSpaceChar r5 with
    | none => none
    | some (_, r6) =>
      match eatLit "asc".data r6 with
      | some _ => some false
      | none =>
        match eatLit "desc".data r6 with
        | some _ => some true
        | none => none
  pure (String.mk col, dir)

/-- `text.match(/order\s+by\s+(\w+)(?:\s+(asc|desc))?/i)`. -/
def matchOrder (text : String) : Option (String × Option Bool) :=
  scanL matchOrderAt text.data

example : matchFromTable "SELECT * FROM t WHERE name ILIKE $1" = some "t" := by decide
example : matchIlike "SELECT * FROM t WHERE name ILIKE $1" = some ("name", 1) := by decide
example : matchLimitIdx "SELECT * FROM t ORDER BY x DESC LIMIT $1 OFFSET $2" = some 1 := by decide
example : matchOffsetIdx "SELECT * FROM t ORDER BY x DESC LIMIT $1 OFFSET $2" = some 2 := by decide
example : matchOrder "SELECT * FROM t ORDER BY x DESC LIMIT $1 OFFSET $2" =
    some ("x", some true) := by decide
example : matchOrder "select * from t order by y limit $1" = some ("y", none) := by decide

/-- An opaque backend row: key-value record, shape dictated by the
backend. -/
def Row : Type := List (String × String)

instance : DecidableEq Row := fun a b => instDecidableEqList a b

/-- The single REST-client call a successful run of
`DatabaseManager.query` issues. Each constructor mirrors one code
path of manager.ts lines 92-201:
* `ilikeSelect t c v n` is `from(t).select('*').ilike(c, v).limit(n)`;
* `pagedSelect t ord lim rng` is `from(t).select('*')` with an optional
  `.order(col, ascending)` (the `Bool` is the ascending flag), an
  optional `.limit(k)` and an optional inclusive `.range(lo, hi)`,
  where `none` inside a numeric slot models JS `NaN`;
* `plainSelect t` is `from(t).select('*')`;
* `rpcCall text ps` is `rpc('execute_custom_query', ...)`. -/
inductive BackendCall where
  | ilikeSelect (table column : String) (value : Param) (lim : Nat)
  | pagedSelect (table : String) (ord : Option (String × Bool))
      (lim : Option (Option Int)) (rng : Option (Option Int × Option Int))
  | plainSelect (table : String)
  | rpcCall (text : String) (params : List Param)
deriving DecidableEq

/-- Failure shapes of `DatabaseManager.query`: the non-SELECT rejection
at manager.ts line 203, and a backend error rethrown verbatim. -/
inductive QueryError where
  | unsupportedQuery
  | backendError (msg : String)
deriving DecidableEq

/-- The optional `.order` call of the LIMIT branch (manager.ts lines
134-141): present when the lower-cased text contains `order by` and the
order regex matches; ascending unless the captured direction group
lower-cases to `desc`. -/
def orderSpec (text : String) : Option (String × Bool) :=
  if strContains (jsToLower text) "order by" = true then
    match matchOrder text with
    | some (col, dir) =>
      some (col, match dir with | some true => false | _ => true)
    | none => none
  else none

/-- The optional `.limit` call (manager.ts lines 143-146): applied only
when the limit regex matched and the referenced parameter is truthy. -/
def limSpec (text : String) (params : Option (List Param)) : Option (Option Int) :=
  match matchLimitIdx text with
  | some n =>
    if truthyOpt (getParam1 params n) = true then
      some (jsParseIntOpt (getParam1 params n))
    else none
  | none => none

/-- The optional `.range` call (manager.ts lines 148-152): applied only
when the offset regex matched and the referenced parameter is truthy;
the span is `offset` to `offset + limit - 1`, with `limit` re-read from
the limit parameter when the limit regex matched and `50` otherwise. -/
def rangeSpec (text : String) (params : Option (List Param)) :
    Option (Option Int × Option Int) :=
  match matchOffsetIdx text with
  | some m =>
    if truthyOpt (getParam1 params m) = true then
      let off := jsParseIntOpt (getParam1 params m)
      let lim2 : Option Int :=
        match matchLimitIdx text with
        | some n => jsParseIntOpt (getParam1 params n)
        | none => some 50
      some (off, jsSub (jsAdd off lim2) (some 1))
    else none
  | none => none

/-- The translation logic of `DatabaseManager.query` (manager.ts lines
84-204): which single backend call the method issues for a given text
and parameter array, or the `Only SELECT queries are supported` failure.
The branch structure, the guard conditions (substring checks on the
lower-cased text, truthiness of the referenced parameter) and the
fallbacks are copied from the source. -/
def translateQuery (text : String) (params : Option (List Param)) :
    Except QueryError BackendCall :=
  if strContains (jsToLower text) "select" = true then
    match matchFromTable text with
    | some tableName =>
      if (strContains (jsToLower text) "where" && strContains (jsToLower text) "ilike"
          && params.isSome) = true then
        match matchIlike text with
        | some (col, idx) =>
          match getParam1 params idx with
          | some v =>
            if truthyP v = true then
              Except.ok (BackendCall.ilikeSelect tableName col v 1)
            else Except.ok (BackendCall.plainSelect tableName)
          | none => Except.ok (BackendCall.plainSelect tableName)
        | none => Except.ok (BackendCall.plainSelect tableName)
      else if (strContains (jsToLower text) "limit" && params.isSome) = true then
        Except.ok (BackendCall.pagedSelect tableName (orderSpec text)
          (limSpec text params) (rangeSpec text params))
      else Except.ok (BackendCall.plainSelect tableName)
    | none => Except.ok (BackendCall.rpcCall text (params.getD []))
  else Except.error QueryError.unsupportedQuery

/-- The result envelope of `DatabaseManager.query` (`QueryResult` in
manager.ts lines 9-15). `fields` is always `[]` in the source. -/
structure QueryResult where
  rows : List Row
  rowCount : Nat
  command : String
  oid : Nat
  fields : List String
deriving DecidableEq

/-- The envelope construction every successful branch of
`DatabaseManager.query` performs: `rows: data || []`,
`rowCount: data ? data.length : 0`, `command: 'SELECT'`, `oid: 0`,
`fields: []`, where `data : Option (List Row)` is the backend
response body (`none` models a `null` body). -/
def mkResult (data : Option (List Row)) : QueryResult :=
  { rows := data.getD []
    rowCount := match data with | some d => d.length | none => 0
    command := "SELECT"
    oid := 0
    fields := [] }

/-- `DatabaseManager.query` end to end: translate the text, issue the
single backend call against the supplied backend, rethrow a backend
error, and wrap a successful response. -/
def queryExec (text : String) (params : Option (List Param))
    (backend : BackendCall → Except String (Option (List Row))) :
    Except QueryError QueryResult :=
  match translateQuery text params with
  | Except.error e => Except.error e
  | Except.ok call =>
    match backend call with
    | Except.error msg => Except.error (QueryError.backendError msg)
    | Except.ok data => Except.ok (mkResult data)

/-- The backend calls a run of `executeCustomQuery` issues: none when
validation fails, otherwise the single call of
`this.query(rewrittenQuery)` (called without parameters). -/
def customQueryIssuedCalls (q : String) (lim : Int) : List BackendCall :=
  match validateCustomQuery q lim with
  | Except.error _ => []
  | Except.ok rewritten =>
    match translateQuery rewritten none with
    | Except.ok call => [call]
    | Except.error _ => []

example : translateQuery "SELECT * FROM t WHERE name ILIKE $1" (some [Param.str "%foo%"]) =
    Except.ok (BackendCall.ilikeSelect "t" "name" (Param.str "%foo%") 1) := by decide
example : translateQuery "SELECT * FROM t ORDER BY x DESC LIMIT $1 OFFSET $2"
    (some [Param.num 10, Param.num 20]) =
    Except.ok (BackendCall.pagedSelect "t" (some ("x", false)) (some (some 10))
      (some (some 20, some 29))) := by decide
example : translateQuery "SELECT * FROM t WHERE name ILIKE $2" (some [Param.str "%foo%"]) =
    Except.ok (BackendCall.plainSelect "t") := by decide
example : translateQuery "DELETE FROM daos WHERE id = 1 AND x IN (SELECT 1)" none =
    Except.ok (BackendCall.plainSelect "daos") := by decide
example : translateQuery "do something" none =
    Except.error QueryError.unsupportedQuery := by decide

/-- Outcome of the zero-row probe `from(t).select('*').limit(0)` that
`tableExists` issues: a successful response (possibly with zero rows),
or an error carrying the backend's message. A thrown exception is a
`failure` as well (both paths of the source return `false`). -/
inductive ProbeResponse where
  | success (rows : List Row)
  | failure (msg : String)

/-- `DatabaseManager.tableExists` (manager.ts lines 248-275), as a
function of the backend's per-table probe outcome: `true` on success;
on error, the source inspects the message for `permission denied`,
`relation` and `does not exist` and returns `false` in that branch, and
also returns `false` for every other error. -/
def tableExists (backend : String → ProbeResponse) (tableName : String) : Bool :=
  match backend tableName with
  | ProbeResponse.success _ => true
  | ProbeResponse.failure msg =>
    if (strContains msg "permission denied" || strContains msg "relation"
        || strContains msg "does not exist") = true then
      false
    else
      false

/-- The hard-coded candidate table list of `getDAONames`
(manager.ts lines 308-342). -/
def knownDAOTables : List String :=
  ["dao_athenadao_tweets", "dao_beeardai_tweets", "dao_bioprotocol_tweets",
   "dao_cerebrumdao_tweets", "dao_cryodao_tweets", "dao_curetopiadao_tweets",
   "dao_d1ckdao_tweets", "dao_dalyadao_tweets", "dao_dogyearsdao_tweets",
   "dao_fatdao_tweets", "dao_gingersciencedao_tweets", "dao_gliodao_tweets",
   "dao_hairdao_tweets", "dao_hempydotscience_tweets", "dao_kidneydao_tweets",
   "dao_longcovidlabsdao_tweets", "dao_mesoreefdao_tweets",
   "dao_microbiomedao_tweets", "dao_microdao_tweets", "dao_moleculedao_tweets",
   "dao_mycodao_tweets", "dao_nootropicsdao_tweets", "dao_psydao_tweets",
   "dao_quantumbiodao_tweets", "dao_reflexdao_tweets", "dao_sleepdao_tweets",
   "dao_spectruthaidao_tweets", "dao_spinedao_tweets", "dao_stemdao_tweets",
   "dao_valleydao_tweets", "dao_vitadao_tweets", "dao_vitafastbio_tweets",
   "dao_vitarnabio_tweets"]

/-- JS `String.prototype.replace` with a string pattern: replace the
first occurrence only. -/
def replFirstL (pat repl : List Char) : List Char → List Char
  | [] => []
  | c :: cs =>
    if strLeads pat (c :: cs) = true then repl ++ (c :: cs).drop pat.length
    else c :: replFirstL pat repl cs

/-- JS `s.replace(pat, repl)` for string patterns. -/
def jsReplaceFirst (s pat repl : String) : String :=
  String.mk (replFirstL pat.data repl.data s.data)

/-- The DAO-name extraction of `getDAONames` (manager.ts line 350):
`tableName.replace('dao_', '').replace('_tweets', '')`. -/
def stripDaoTableName (t : String) : String :=
  jsReplaceFirst (jsReplaceFirst t "dao_" "") "_tweets" ""

/-- The JS `[...new Set(list)]` deduplication: keep the first occurrence
of each element, compared by exact (case-sensitive) string equality,
preserving order. `seen` accumulates the elements already emitted. -/
def dedupAux : List String → List String → List String
  | _, [] => []
  | seen, x :: xs =>
    if x ∈ seen then dedupAux seen xs else x :: dedupAux (x :: seen) xs

/-- `[...new Set(l)]`. -/
def dedupExact (l : List String) : List String := dedupAux [] l

/-- `DatabaseManager.getDAONames` (manager.ts lines 278-366) as a
function of the backend state: `backend` gives each table's probe
outcome, `daosNames` the `name` column of the `daos` registry table,
and `daosFetchError` whether fetching that table failed (in which case
its names are skipped with a warning). Registry names are collected
first, then the candidate tweet tables that exist contribute their
stripped names, and the result is deduplicated JS-`Set`-style. -/
def getDAONames (backend : String → ProbeResponse) (daosNames : List String)
    (daosFetchError : Bool) : List String :=
  let fromRegistry :=
    if tableExists backend "daos" = true then
      if daosFetchError = true then [] else daosNames
    else []
  let fromTables :=
    (knownDAOTables.filter (fun t => tableExists backend t)).map stripDaoTableName
  dedupExact (fromRegistry ++ fromTables)

example : stripDaoTableName "dao_vitadao_tweets" = "vitadao" := by decide

lemma find_some_of_mem {p : String → Bool} :
    ∀ {l : List String} {k : String}, k ∈ l → p k = true →
      ∃ x, l.find? p = some x ∧ x ∈ l ∧ p x = true := by
  intro l
  induction l with
  | nil => intro k hk _; exact absurd hk (List.not_mem_nil k)
  | cons a as ih =>
    intro k hk hp
    by_cases hpa : p a = true
    · exact ⟨a, List.find?_cons_of_pos as hpa, List.mem_cons_self a as, hpa⟩
    · rcases List.mem_cons.mp hk with rfl | hk'
      · exact absurd hp hpa
      · obtain ⟨x, hfind, hxl, hpx⟩ := ih hk' hp
        refine ⟨x, ?_, List.mem_cons_of_mem a hxl, hpx⟩
        rw [List.find?_cons_of_neg as hpa]
        exact hfind

/-- Claim C1: every query text whose lower-cased, trimmed form contains
one of the blocked keywords `drop, delete, update, insert, alter,
create, truncate` as a substring makes the safety check of
`executeCustomQuery` fail with a `SafetyViolation` naming a contained
blocked keyword, and no backend call is ever issued for it. -/
theorem validate_blocks_dangerous_keywords (q : String) (lim : Int) (k : String)
    (hk : k ∈ dangerousKeywords)
    (hc : strContains (jsTrim (jsToLower q)) k = true) :
    ∃ x, x ∈ dangerousKeywords ∧ strContains (jsTrim (jsToLower q)) x = true ∧
      validateCustomQuery q lim = Except.error (SafetyViolation.keyword x) ∧
      customQueryIssuedCalls q lim = [] := by
  obtain ⟨x, hfind, hxl, hpx⟩ :=
    find_some_of_mem (p := fun s => strContains (jsTrim (jsToLower q)) s) hk hc
  have hval : validateCustomQuery q lim = Except.error (SafetyViolation.keyword x) := by
    simp only [validateCustomQuery, findDangerous]
    rw [hfind]
  exact ⟨x, hxl, hpx, hval, by simp [customQueryIssuedCalls, hval]⟩

/-- Witness for C1 at a concrete blocked query. -/
theorem validate_blocks_dangerous_keywords_witness :
    ∃ x, x ∈ dangerousKeywords ∧
      strContains (jsTrim (jsToLower "SELECT * FROM t; DROP TABLE u")) x = true ∧
      validateCustomQuery "SELECT * FROM t; DROP TABLE u" 100 =
        Except.error (SafetyViolation.keyword x) ∧
      customQueryIssuedCalls "SELECT * FROM t; DROP TABLE u" 100 = [] :=
  validate_blocks_dangerous_keywords "SELECT * FROM t; DROP TABLE u" 100 "drop"
    (by decide) (by decide)

/-- Counterexample to claim C9 as stated: `drop table x` does not start
with `select` after normalization, yet the safety check fails with the
blocked-keyword variant (the keyword loop runs first), not with the
`notSelect` variant. -/
theorem validate_notSelect_counterexample :
    jsStarts (jsTrim (jsToLower "drop table x")) "select" = false ∧
    validateCustomQuery "drop table x" 100 =
      Except.error (SafetyViolation.keyword "drop") ∧
    SafetyViolation.keyword "drop" ≠ SafetyViolation.notSelect := by decide

/-- Claim C9 (amended): every query text whose lower-cased, trimmed form
contains no blocked keyword and does not start with `select` makes the
safety check fail with the `notSelect` variant. -/
theorem validate_notSelect_of_no_keyword (q : String) (lim : Int)
    (hd : findDangerous (jsTrim (jsToLower q)) = none)
    (hs : jsStarts (jsTrim (jsToLower q)) "select" = false) :
    validateCustomQuery q lim = Except.error SafetyViolation.notSelect := by
  simp [validateCustomQuery, hd, hs]

/-- Witness for amended C9 at a concrete non-SELECT query. -/
theorem validate_notSelect_of_no_keyword_witness :
    validateCustomQuery "show tables" 100 = Except.error SafetyViolation.notSelect :=
  validate_notSelect_of_no_keyword "show tables" 100 (by decide) (by decide)

/-- Claim C10: for a safe SELECT text, the `LIMIT` cap is appended
exactly when the lower-cased text does not contain the substring
`limit`; any occurrence of `limit` anywhere (even inside an identifier
such as `limitless`) suppresses the cap and the query is returned
unchanged. -/
theorem validate_limit_cap_suppression (q : String) (lim : Int)
    (hd : findDangerous (jsTrim (jsToLower q)) = none)
    (hs : jsStarts (jsTrim (jsToLower q)) "select" = true) :
    (strContains (jsTrim (jsToLower q)) "limit" = true →
      validateCustomQuery q lim = Except.ok q) ∧
    (strContains (jsTrim (jsToLower q)) "limit" = false →
      validateCustomQuery q lim = Except.ok (q ++ " LIMIT " ++ toString lim)) := by
  constructor
  · intro hl; simp [validateCustomQuery, hd, hs, hl]
  · intro hl; simp [validateCustomQuery, hd, hs, hl]

/-- Witness for C10: a query with a column named `limitless` and no
LIMIT clause is returned unchanged, with no cap appended. -/
theorem validate_limit_cap_suppression_witness :
    validateCustomQuery "select limitless from t" 100 =
      Except.ok "select limitless from t" :=
  (validate_limit_cap_suppression "select limitless from t" 100
    (by decide) (by decide)).1 (by decide)

example :
    getDAONames
      (fun t => if t == "daos" || t == "dao_vitadao_tweets" then
          ProbeResponse.success []
        else ProbeResponse.failure "relation does not exist")
      ["Vitadao"] false = ["Vitadao", "vitadao"] := by decide

/-- `Except.isOk` as a plain function. -/
def exOk {ε α : Type} : Except ε α → Bool
  | Except.ok _ => true
  | Except.error _ => false

lemma translate_isOk (text : String) (params : Option (List Param))
    (h : strContains (jsToLower text) "select" = true) :
    exOk (translateQuery text params) = true := by
  unfold translateQuery
  rw [h]
  simp only [if_pos rfl]
  cases hft : matchFromTable text with
  | none => rfl
  | some tbl =>
    cases hw : (strContains (jsToLower text) "where" && strContains (jsToLower text) "ilike"
        && params.isSome) with
    | false =>
      cases hl : (strContains (jsToLower text) "limit" && params.isSome) with
      | false => simp [hw, hl, exOk]
      | true => simp [hw, hl, exOk]
    | true =>
      cases hmi : matchIlike text with
      | none => simp [hw, hmi, exOk]
      | some ci =>
        obtain ⟨col, idx⟩ := ci
        cases hg : getParam1 params idx with
        | none => simp [hw, hmi, hg, exOk]
        | some v =>
          cases ht : truthyP v with
          | false => simp [hw, hmi, hg, ht, exOk]
          | true => simp [hw, hmi, hg, ht, exOk]

/-- Counterexample to claim C2 as stated: this text is not a SELECT
statement (after normalization it starts with `delete`, not `select`),
yet `DatabaseManager.query` does not fail with `UnsupportedQuery`: the
gate only checks that the lower-cased text contains `select` somewhere,
so the statement proceeds to translation and issues a plain select on
`daos`. -/
theorem translate_nonselect_counterexample :
    jsStarts (jsTrim (jsToLower "DELETE FROM daos WHERE id IN (SELECT 1)")) "select"
      = false ∧
    translateQuery "DELETE FROM daos WHERE id IN (SELECT 1)" none =
      Except.ok (BackendCall.plainSelect "daos") := by decide

/-- Claim C2 (amended): `DatabaseManager.query` fails with
`UnsupportedQuery` exactly when the lower-cased text does not contain
`select` as a substring; any text containing `select` anywhere
(SELECT statement or not) proceeds to translation. -/
theorem translate_unsupported_iff_no_select (text : String)
    (params : Option (List Param)) :
    translateQuery text params = Except.error QueryError.unsupportedQuery ↔
      strContains (jsToLower text) "select" = false := by
  cases h : strContains (jsToLower text) "select" with
  | false =>
    constructor
    · intro _; rfl
    · intro _
      unfold translateQuery
      rw [h]
      simp
  | true =>
    constructor
    · intro heq
      have hok := translate_isOk text params h
      rw [heq] at hok
      exact Bool.noConfusion hok
    · intro hf
      exact Bool.noConfusion hf

/-- Counterexample to claim C3 as stated: the ILIKE clause references
`$2` but only one parameter is supplied; `DatabaseManager.query` does
not fail with `UnsupportedQuery` — it silently falls back to an
unfiltered plain select on the table and executes that backend call. -/
theorem ilike_out_of_range_counterexample :
    matchIlike "SELECT * FROM t WHERE name ILIKE $2" = some ("name", 2) ∧
    translateQuery "SELECT * FROM t WHERE name ILIKE $2" (some [Param.str "%foo%"]) =
      Except.ok (BackendCall.plainSelect "t") := by decide

/-- Claim C3 (amended): when the ILIKE clause references a positional
parameter that is absent (out of range), the translator does not fail;
it falls back to a plain unfiltered select on the extracted table and
issues that backend call. -/
theorem ilike_out_of_range_falls_back (text : String) (params : Option (List Param))
    (tbl col : String) (idx : Nat)
    (hsel : strContains (jsToLower text) "select" = true)
    (hft : matchFromTable text = some tbl)
    (hw : strContains (jsToLower text) "where" = true)
    (hi : strContains (jsToLower text) "ilike" = true)
    (hp : params.isSome = true)
    (hmi : matchIlike text = some (col, idx))
    (hg : getParam1 params idx = none) :
    translateQuery text params = Except.ok (BackendCall.plainSelect tbl) := by
  simp [translateQuery, hsel, hft, hw, hi, hp, hmi, hg]

/-- Witness for amended C3 at the counterexample input. -/
theorem ilike_out_of_range_falls_back_witness :
    translateQuery "SELECT * FROM t WHERE name ILIKE $2" (some [Param.str "%foo%"]) =
      Except.ok (BackendCall.plainSelect "t") :=
  ilike_out_of_range_falls_back "SELECT * FROM t WHERE name ILIKE $2"
    (some [Param.str "%foo%"]) "t" "name" 2 (by decide) (by decide) (by decide)
    (by decide) (by decide) (by decide) (by decide)

/-- Claim C4: every result envelope produced by a successful run of
`DatabaseManager.query` — through the ILIKE branch, the paginated
branch, the plain select or the remote-procedure fallback, all of which
wrap the backend body with `mkResult` — satisfies
`rowCount = rows.length` and `command = "SELECT"`. -/
theorem query_result_envelope_invariant (text : String) (params : Option (List Param))
    (backend : BackendCall → Except String (Option (List Row))) (r : QueryResult)
    (h : queryExec text params backend = Except.ok r) :
    r.rowCount = r.rows.length ∧ r.command = "SELECT" := by
  unfold queryExec at h
  split at h
  · exact Except.noConfusion h
  · split at h
    · exact Except.noConfusion h
    · rename_i data hb
      injection h with hr
      cases data with
      | none => rw [← hr]; exact ⟨rfl, rfl⟩
      | some d => rw [← hr]; exact ⟨rfl, rfl⟩

/-- Witness for C4 at a concrete query against a one-row backend. -/
theorem query_result_envelope_invariant_witness :
    (mkResult (some [[("a", "1")]])).rowCount =
      (mkResult (some [[("a", "1")]])).rows.length ∧
    (mkResult (some [[("a", "1")]])).command = "SELECT" :=
  query_result_envelope_invariant "SELECT * FROM t" none
    (fun _ => Except.ok (some [[("a", "1")]])) (mkResult (some [[("a", "1")]]))
    (by decide)

lemma not_mem_of_mem_dedupAux :
    ∀ (l seen : List String) (x : String), x ∈ dedupAux seen l → x ∉ seen := by
  intro l
  induction l with
  | nil => intro seen x hx; simp [dedupAux] at hx
  | cons a as ih =>
    intro seen x hx
    by_cases ha : a ∈ seen
    · rw [dedupAux, if_pos ha] at hx
      exact ih seen x hx
    · rw [dedupAux, if_neg ha] at hx
      rcases List.mem_cons.mp hx with rfl | hx'
      · exact ha
      · intro hxseen
        exact ih (a :: seen) x hx' (List.mem_cons_of_mem a hxseen)

lemma nodup_dedupAux : ∀ (l seen : List String), (dedupAux seen l).Nodup := by
  intro l
  induction l with
  | nil => intro seen; simp [dedupAux]
  | cons a as ih =>
    intro seen
    by_cases ha : a ∈ seen
    · rw [dedupAux, if_pos ha]
      exact ih seen
    · rw [dedupAux, if_neg ha]
      refine List.nodup_cons.mpr ⟨?_, ih (a :: seen)⟩
      intro hmem
      exact not_mem_of_mem_dedupAux as (a :: seen) a hmem
        (List.mem_cons_self a seen)

lemma nodup_dedupExact (l : List String) : (dedupExact l).Nodup :=
  nodup_dedupAux l []

/-- Counterexample to claim C5 as stated: with a backend whose registry
reports the organization as `Vitadao` and whose candidate-table probe
finds `dao_vitadao_tweets`, `getDAONames` returns both `Vitadao` and
`vitadao` — two internal names equal under case-insensitive comparison
— because the JS `Set` deduplication compares exact strings. -/
theorem getDAONames_case_insensitive_counterexample :
    getDAONames
      (fun t => if t == "daos" || t == "dao_vitadao_tweets" then
          ProbeResponse.success []
        else ProbeResponse.failure "relation does not exist")
      ["Vitadao"] false = ["Vitadao", "vitadao"] ∧
    jsToLower "Vitadao" = jsToLower "vitadao" ∧
    "Vitadao" ≠ "vitadao" := by decide

/-- Claim C5 (amended): for every backend state, the list returned by
`getDAONames` contains no two names that are equal as exact strings
(case-sensitive comparison); case-insensitive duplicates can survive. -/
theorem getDAONames_nodup_exact (backend : String → ProbeResponse)
    (daosNames : List String) (daosFetchError : Bool) :
    (getDAONames backend daosNames daosFetchError).Nodup :=
  nodup_dedupExact _

/-- Claim C6: `tableExists` returns `true` exactly when the zero-row
probe succeeds (even with zero rows); every error response — relation
absent, access denied, or anything else — yields `false`. -/
theorem tableExists_true_iff_success (backend : String → ProbeResponse)
    (tableName : String) :
    tableExists backend tableName = true ↔
      ∃ rows, backend tableName = ProbeResponse.success rows := by
  cases hb : backend tableName with
  | success rows =>
    simp only [tableExists, hb]
    exact ⟨fun _ => ⟨rows, rfl⟩, fun _ => trivial⟩
  | failure msg =>
    simp only [tableExists, hb]
    constructor
    · intro hx
      split at hx
      · exact Bool.noConfusion hx
      · exact Bool.noConfusion hx
    · intro ⟨rows, hx⟩
      exact ProbeResponse.noConfusion hx

/-- Claim C7: the query text `SELECT * FROM t WHERE name ILIKE $1` with
the single parameter `%foo%` issues exactly one backend call — an ILIKE
pattern filter on column `name` with value `%foo%` against table `t`,
capped to 1 row — and that call succeeds through the ILIKE branch. -/
theorem translate_ilike_lookup :
    translateQuery "SELECT * FROM t WHERE name ILIKE $1" (some [Param.str "%foo%"]) =
      Except.ok (BackendCall.ilikeSelect "t" "name" (Param.str "%foo%") 1) := by
  decide

/-- Claim C8: the query text
`SELECT * FROM t ORDER BY x DESC LIMIT $1 OFFSET $2` with parameters
`[10, 20]` issues a full-column projection on table `t`, ordered
descending on `x` (ascending flag `false`), with the limit `10` applied
and the range restricted to rows `20` through `29` inclusive. -/
theorem translate_paged_descending :
    translateQuery "SELECT * FROM t ORDER BY x DESC LIMIT $1 OFFSET $2"
      (some [Param.num 10, Param.num 20]) =
      Except.ok (BackendCall.pagedSelect "t" (some ("x", false)) (some (some 10))
        (some (some 20, some 29))) := by
  decide




